import Mathlib

/-!
Verification development for the Neural-Network-visualisation repository.

The definitions below are a shallow embedding of the TypeScript source:

- src/src/utils/NeuralNetworkModel.ts. This file holds two revisions of the
  class NeuralNetworkModel; the second revision (the chunked trainer with the
  three-tier predict) is the one the line references point at, and both
  revisions share createModel and the data generators verbatim.
- src/unnamed/part_001 (ParameterControls.tsx): handleLayersChange.
- src/unnamed/part_002 (DatasetGenerator.ts): generateCircleData.

Numbers that the runtime represents as IEEE doubles are embedded as rationals
where only field plumbing matters and as real numbers where square roots are
taken. TensorFlow.js itself is external to the repository: fit and predict are
embedded as abstract operations, and the facts the code relies on (a dense
layer with u units maps a batch of n rows to an n-by-u batch, fit invokes
onEpochEnd once per epoch and onTrainEnd once per call) enter the theorems as
explicit hypotheses on those abstract operations.
-/

/-- Activation identifiers accepted by the TF.js layer builders. -/
inductive ActivationIdentifier where
  | relu
  | sigmoid
  | tanh
  deriving DecidableEq

/-- Loss identifiers passed to model.compile in the source. -/
inductive LossKind where
  | binaryCrossentropy
  | meanSquaredError
  deriving DecidableEq

/-- Translation of mapActivationFunction (NeuralNetworkModel.ts): unknown
names default to relu. -/
def mapActivationFunction (activation : String) : ActivationIdentifier :=
  if activation = "relu" then ActivationIdentifier.relu
  else if activation = "sigmoid" then ActivationIdentifier.sigmoid
  else if activation = "tanh" then ActivationIdentifier.tanh
  else ActivationIdentifier.relu

/-- Parameter record from ParameterControls.tsx (interface
NeuralNetworkParameters). -/
structure NeuralNetworkParameters where
  layers : Nat
  neuronsPerLayer : List Nat
  learningRate : ℚ
  epochs : Nat
  batchSize : Nat
  activationFunction : String
  deriving DecidableEq

/-- Configuration of one dense layer as passed to tf.layers.dense: the unit
count, the activation (none when the option is omitted, as in the regression
head), and the declared input width of the first layer (none for later
layers). -/
structure DenseLayerConfig where
  units : Nat
  activation : Option ActivationIdentifier
  inputShape : Option Nat
  deriving DecidableEq

/-- A compiled tf.sequential model: the ordered dense layer configs plus the
compile options actually recorded by the source (loss and learning rate). -/
structure SequentialModel where
  layers : List DenseLayerConfig
  loss : LossKind
  learningRate : ℚ
  deriving DecidableEq

/-- Translation of createModel (NeuralNetworkModel.ts): one dense layer per
hidden index i < parameters.layers with units neuronsPerLayer[i] (the first
carries inputShape [2]), then a single-unit sigmoid head, compiled with
binary cross-entropy. -/
def createModel (parameters : NeuralNetworkParameters) : SequentialModel :=
  { layers :=
      (List.range parameters.layers).map (fun i =>
        { units := parameters.neuronsPerLayer.getD i 0
          activation := some (mapActivationFunction parameters.activationFunction)
          inputShape := if i = 0 then some 2 else none })
      ++ [{ units := 1
            activation := some ActivationIdentifier.sigmoid
            inputShape := none }]
    loss := LossKind.binaryCrossentropy
    learningRate := parameters.learningRate }

/-- Translation of the inline model construction at the top of
trainOnRegressionData (NeuralNetworkModel.ts): same hidden stack but with
inputShape [1] on the first layer, a single-unit head with no activation,
compiled with mean squared error. -/
def buildRegressionModel (parameters : NeuralNetworkParameters) : SequentialModel :=
  { layers :=
      (List.range parameters.layers).map (fun i =>
        { units := parameters.neuronsPerLayer.getD i 0
          activation := some (mapActivationFunction parameters.activationFunction)
          inputShape := if i = 0 then some 1 else none })
      ++ [{ units := 1
            activation := none
            inputShape := none }]
    loss := LossKind.meanSquaredError
    learningRate := parameters.learningRate }

/-- Translation of handleLayersChange (ParameterControls.tsx): copies
neuronsPerLayer, pushes the default 8 once per added layer when the count
grows, truncates with splice(newLayers) when it shrinks, and returns the new
layer count together with the resized list. -/
def handleLayersChange (layers : Nat) (neuronsPerLayer : List Nat) (newLayers : Nat) :
    Nat × List Nat :=
  (newLayers,
    if layers < newLayers then
      neuronsPerLayer ++ List.replicate (newLayers - layers) 8
    else if newLayers < layers then
      neuronsPerLayer.take newLayers
    else neuronsPerLayer)

/-- Chunk size of the chunked training loops (const batchesPerRun = 5). -/
def batchesPerRun : Nat := 5

/-- Number of fit calls the chunked loops schedule:
Math.ceil(epochs / batchesPerRun). -/
def totalRuns (epochs : Nat) : Nat := (epochs + (batchesPerRun - 1)) / batchesPerRun

/-- One iteration record of the chunk loop shared by the chunked training
methods: for run = 0, 1, ... the loop computes currentEpoch = run * 5 and
remainingEpochs = min(5, epochs - currentEpoch) and breaks when
remainingEpochs is not positive (truncated subtraction makes that the test
remainingEpochs = 0). The fuel argument is the loop bound totalRuns. Each
element of the result is the pair (currentEpoch, remainingEpochs) of one
executed fit call. -/
def chunkRunsAux (epochs : Nat) : Nat → Nat → List (Nat × Nat)
  | 0, _ => []
  | fuel + 1, run =>
    let currentEpoch := run * batchesPerRun
    let remainingEpochs := min batchesPerRun (epochs - currentEpoch)
    if remainingEpochs = 0 then []
    else (currentEpoch, remainingEpochs) :: chunkRunsAux epochs fuel (run + 1)

/-- The fit calls issued by one chunked training run over the given epoch
count. -/
def chunkPlan (epochs : Nat) : List (Nat × Nat) := chunkRunsAux epochs (totalRuns epochs) 0

/-- Global epoch indices forwarded to callbacks.onEpochEnd by the chunked
trainOnXOR loop: within the fit call at (currentEpoch, remainingEpochs) the
local index epoch runs over 0 .. remainingEpochs - 1 and is reported as
actualEpoch = currentEpoch + epoch. -/
def reportedEpochs (epochs : Nat) : List Nat :=
  ((chunkPlan epochs).map (fun cr => (List.range cr.2).map (fun ep => cr.1 + ep))).flatten

/-- Loss history accumulated by the chunked trainOnXOR: one lossHistory.push
per onEpochEnd event, with the loss value of that global epoch supplied by
the runtime (parametrised here as a function of the global epoch index). -/
def xorLossHistory (losses : Nat → ℚ) (epochs : Nat) : List ℚ :=
  (reportedEpochs epochs).map losses

/-- Externally observable callback events of a training run. -/
inductive TrainingEvent where
  | epochEnd (globalEpoch : Nat)
  | trainingComplete
  deriving DecidableEq

/-- Events produced inside one fit call by the per-epoch callback. -/
def chunkEpochEvents (cr : Nat × Nat) : List TrainingEvent :=
  (List.range cr.2).map (fun ep => TrainingEvent.epochEnd (cr.1 + ep))

/-- Callback trace of the chunked trainOnXOR: the chunk loop only registers
onEpochEnd on each fit call, and callbacks.onTrainingComplete is invoked once
after the loop finishes. -/
def xorTrace (epochs : Nat) : List TrainingEvent :=
  ((chunkPlan epochs).map chunkEpochEvents).flatten ++ [TrainingEvent.trainingComplete]

/-- Callback trace of the chunked trainOnCircleData (trainOnRegressionData is
structured identically): every fit call registers both onEpochEnd and an
onTrainEnd handler that invokes callbacks.onTrainingComplete, and TF.js fires
onTrainEnd once at the end of every fit call, hence once per chunk. -/
def circleTrace (epochs : Nat) : List TrainingEvent :=
  ((chunkPlan epochs).map
      (fun cr => chunkEpochEvents cr ++ [TrainingEvent.trainingComplete])).flatten

/-- Detector for the completion event. -/
def isCompleteEvent : TrainingEvent → Bool
  | TrainingEvent.trainingComplete => true
  | TrainingEvent.epochEnd _ => false

/-- Number of completion-callback invocations in a trace. -/
def completionCount (trace : List TrainingEvent) : Nat :=
  (trace.filter isCompleteEvent).length

/-- Private flags of class NeuralNetworkModel that the stop path touches. -/
structure ModelState where
  isTraining : Bool
  shouldStopTraining : Bool
  deriving DecidableEq

/-- Translation of the public stopTraining method: it assigns
this.shouldStopTraining = true and nothing else. -/
def stopTraining (s : ModelState) : ModelState :=
  { s with shouldStopTraining := true }

/-- Epochs executed by one TF.js fit call that was asked for the given epoch
count, under the fit contract: fit starts with a cleared stopTraining flag,
runs an epoch, fires onEpochEnd, and stops early only when that callback set
model.stopTraining. The callback of the circle and regression chunk loops
sets it exactly when this.shouldStopTraining holds, so a fit whose callback
sets the flag completes only the in-flight first epoch. -/
def fitEpochsExecuted (requested : Nat) (callbackSetsStop : Bool) : Nat :=
  if callbackSetsStop then min 1 requested else requested

/-- Total epochs executed by the chunked trainOnXOR for a given value of
this.shouldStopTraining: its per-epoch callback never reads the flag and
never sets model.stopTraining, so every fit call runs its full chunk. -/
def xorEpochsExecuted (epochs : Nat) (shouldStop : Bool) : Nat :=
  ((chunkPlan epochs).map (fun cr => fitEpochsExecuted cr.2 false)).sum

/-- Total epochs executed by the chunked trainOnCircleData (and the identical
regression loop) when this.shouldStopTraining holds the given constant value
for the whole run: each fit call checks the flag in its per-epoch callback
and the chunk loop itself never re-checks it between chunks. -/
def circleEpochsExecuted (epochs : Nat) (shouldStop : Bool) : Nat :=
  ((chunkPlan epochs).map (fun cr => fitEpochsExecuted cr.2 shouldStop)).sum

/-- Batch sizes of the fit calls issued by the chunked trainOnXOR: the method
declares const batchSize = 4 and passes it to every fit call, ignoring
parameters.batchSize. -/
def xorFitBatchSizes (parameters : NeuralNetworkParameters) : List Nat :=
  (chunkPlan parameters.epochs).map (fun _ => 4)

/-- Batch sizes of the fit calls issued by the chunked trainOnCircleData and
trainOnRegressionData: both read const batchSize = parameters.batchSize and
pass it to every fit call. -/
def circleFitBatchSizes (parameters : NeuralNetworkParameters) : List Nat :=
  (chunkPlan parameters.epochs).map (fun _ => parameters.batchSize)

/-- The default parameter record of the application (App.tsx and
ParameterControls.tsx initial state). -/
def exampleParameters : NeuralNetworkParameters :=
  { layers := 2
    neuronsPerLayer := [8, 8]
    learningRate := 1 / 100
    epochs := 50
    batchSize := 32
    activationFunction := "relu" }

/-- Record forwarded to callbacks.onEpochEnd. -/
structure EpochLogs where
  loss : ℚ
  accuracy : ℚ
  deriving DecidableEq

/-- Translation of the per-epoch forwarding in trainOnRegressionData: the
accuracy slot is filled with 1 - mse / 10 from the mse metric of the epoch,
with no further clamping. -/
def regressionEpochLogs (loss mse : ℚ) : EpochLogs :=
  { loss := loss, accuracy := 1 - mse / 10 }

/-- One labelled sample of the circle dataset. -/
structure CirclePoint where
  x : ℝ
  y : ℝ
  label : Nat

/-- Translation of one iteration of the generateCircleData loop
(DatasetGenerator.ts and NeuralNetworkModel.ts share it verbatim): from two
draws of Math.random it forms x = rx * 2 - 1 and y = ry * 2 - 1, computes
Math.sqrt(x * x + y * y), and labels the point 1 when that distance is below
0.5, else 0. -/
noncomputable def circleSample (rx ry : ℝ) : CirclePoint :=
  let x := rx * 2 - 1
  let y := ry * 2 - 1
  let distanceFromOrigin := Real.sqrt (x * x + y * y)
  { x := x, y := y, label := if distanceFromOrigin < 0.5 then 1 else 0 }

/-- Translation of generateCircleData: numSamples loop iterations, each
consuming two fresh draws from the Math.random stream rand. -/
noncomputable def generateCircleData (numSamples : Nat) (rand : Nat → ℝ) : List CirclePoint :=
  (List.range numSamples).map (fun i => circleSample (rand (2 * i)) (rand (2 * i + 1)))

/-- A numeric batch: row and column counts plus entries. Only the shape and
the zero-ness of entries matter to the claims about predict. -/
structure Tensor2 where
  rows : Nat
  cols : Nat
  entry : Nat → Nat → ℚ

/-- Translation of tf.zeros([r, c]). -/
def tfZeros (r c : Nat) : Tensor2 :=
  { rows := r, cols := c, entry := fun _ _ => 0 }

/-- A built TF.js layers model as the predict method sees it: the unit counts
of its dense layers in order, the declared input width (inputs[0].shape[1]),
and the two abstract backend operations the method calls, either of which may
fail with an internal error. -/
structure TFLayersModel where
  layerUnits : List Nat
  inputWidth : Nat
  predictOp : Tensor2 → Except String Tensor2
  applyLayer : Nat → Tensor2 → Except String Tensor2

/-- Width the predict fallback reads from the model: outputShape[1] with the
JavaScript idiom outputSize = outputShape[1] || 1, which yields 1 when the
slot is falsy. The declared output shape of a sequential model ends at its
last dense layer, so the slot holds the last layer unit count. -/
def outputSize (m : TFLayersModel) : Nat :=
  match m.layerUnits.getLast? with
  | some u => if u = 0 then 1 else u
  | none => 1

/-- Tier 1 of predict: the guard throws on a detected width mismatch (both
widths nonzero and different, mirroring the truthiness test in the source)
without calling the backend; otherwise the result is whatever the direct
this.model.predict call produces. -/
def tier1Result (m : TFLayersModel) (inputs : Tensor2) : Except String Tensor2 :=
  if m.inputWidth ≠ 0 ∧ inputs.cols ≠ 0 ∧ m.inputWidth ≠ inputs.cols then
    Except.error "Input shape mismatch"
  else m.predictOp inputs

/-- Tier 2 of predict: apply only the first layer (this.model.layers[0]) and
then the last layer (this.model.layers[length - 1]) to its output. -/
def layerPairApply (m : TFLayersModel) (inputs : Tensor2) : Except String Tensor2 :=
  match m.applyLayer 0 inputs with
  | Except.ok features => m.applyLayer (m.layerUnits.length - 1) features
  | Except.error e => Except.error e

/-- Translation of the async predict method: a missing model still throws;
otherwise tier 1 is tried, on any tier-1 error tier 2 is tried, and on any
tier-2 error an all-zero batch of shape [batchSize, outputSize] is returned. -/
def NNpredict (modelOpt : Option TFLayersModel) (inputs : Tensor2) : Except String Tensor2 :=
  match modelOpt with
  | none => Except.error "Model not created yet"
  | some m =>
    match tier1Result m inputs with
    | Except.ok r => Except.ok r
    | Except.error _ =>
      match layerPairApply m inputs with
      | Except.ok r => Except.ok r
      | Except.error _ => Except.ok (tfZeros inputs.rows (outputSize m))

/-- A concrete model whose backend operations always fail, for exercising the
tier-3 fallback. -/
def exampleTFModel : TFLayersModel :=
  { layerUnits := [8, 1]
    inputWidth := 2
    predictOp := fun _ => Except.error "backend failure"
    applyLayer := fun _ _ => Except.error "backend failure" }

/-- A malformed input batch: four rows of width 3 against a model that
declares input width 2. -/
def exampleInputs : Tensor2 :=
  { rows := 4, cols := 3, entry := fun _ _ => 0 }

/-! ## Helper lemmas about the chunk loop -/

lemma chunkRunsAux_flatten (epochs : Nat) :
    ∀ fuel run, epochs ≤ (run + fuel) * batchesPerRun →
      ((chunkRunsAux epochs fuel run).map
          (fun cr => (List.range cr.2).map (fun ep => cr.1 + ep))).flatten
        = List.range' (run * batchesPerRun) (epochs - run * batchesPerRun) := by
  intro fuel
  induction fuel with
  | zero =>
    intro run h
    have h0 : epochs - run * batchesPerRun = 0 := by
      simp only [batchesPerRun] at h ⊢; omega
    simp [chunkRunsAux, h0]
  | succ n ih =>
    intro run h
    by_cases hr : min batchesPerRun (epochs - run * batchesPerRun) = 0
    · have h0 : epochs - run * batchesPerRun = 0 := by
        simp only [batchesPerRun] at hr ⊢; omega
      simp [chunkRunsAux, hr, h0]
    · have hih := ih (run + 1) (by simp only [batchesPerRun] at h ⊢; omega)
      simp only [chunkRunsAux, if_neg hr, List.map_cons, List.flatten_cons]
      rw [hih, ← List.range'_eq_map_range]
      rcases Nat.lt_or_ge (epochs - run * batchesPerRun) batchesPerRun with hlt | hge
      · have h1 : min batchesPerRun (epochs - run * batchesPerRun)
            = epochs - run * batchesPerRun := by omega
        have h2 : epochs - (run + 1) * batchesPerRun = 0 := by
          simp only [batchesPerRun] at hlt ⊢; omega
        simp [h1, h2]
      · have h1 : min batchesPerRun (epochs - run * batchesPerRun) = batchesPerRun := by
          omega
        rw [h1]
        have happ := List.range'_append (run * batchesPerRun) batchesPerRun
          (epochs - (run + 1) * batchesPerRun) 1
        simp only [one_mul] at happ
        have harith : run * batchesPerRun + batchesPerRun = (run + 1) * batchesPerRun := by
          ring
        rw [harith] at happ
        rw [happ]
        congr 1
        simp only [batchesPerRun] at hge ⊢
        omega

lemma reportedEpochs_eq_range (epochs : Nat) :
    reportedEpochs epochs = List.range epochs := by
  unfold reportedEpochs chunkPlan
  rw [chunkRunsAux_flatten epochs (totalRuns epochs) 0
    (by simp only [totalRuns, batchesPerRun]; omega)]
  simp [List.range_eq_range']

lemma chunkRunsAux_length (epochs : Nat) :
    ∀ fuel run, (run + fuel) * batchesPerRun < epochs + batchesPerRun →
      (chunkRunsAux epochs fuel run).length = fuel := by
  intro fuel
  induction fuel with
  | zero => intro run h; simp [chunkRunsAux]
  | succ n ih =>
    intro run h
    have hr : min batchesPerRun (epochs - run * batchesPerRun) ≠ 0 := by
      simp only [batchesPerRun] at h ⊢; omega
    simp only [chunkRunsAux, if_neg hr, List.length_cons]
    rw [ih (run + 1) (by simp only [batchesPerRun] at h ⊢; omega)]

lemma chunkPlan_length (epochs : Nat) :
    (chunkPlan epochs).length = totalRuns epochs := by
  unfold chunkPlan
  exact chunkRunsAux_length epochs (totalRuns epochs) 0
    (by simp only [totalRuns, batchesPerRun]; omega)

lemma chunkRunsAux_mem (epochs : Nat) :
    ∀ fuel run cr, cr ∈ chunkRunsAux epochs fuel run →
      0 < cr.2 ∧ cr.2 ≤ batchesPerRun := by
  intro fuel
  induction fuel with
  | zero => intro run cr hcr; simp [chunkRunsAux] at hcr
  | succ n ih =>
    intro run cr hcr
    by_cases hr : min batchesPerRun (epochs - run * batchesPerRun) = 0
    · simp [chunkRunsAux, hr] at hcr
    · simp only [chunkRunsAux, if_neg hr, List.mem_cons] at hcr
      rcases hcr with hcr | hcr
      · subst hcr
        constructor
        · omega
        · exact min_le_left _ _
      · exact ih (run + 1) cr hcr

lemma chunkPlan_mem (epochs : Nat) (cr : Nat × Nat) (hcr : cr ∈ chunkPlan epochs) :
    0 < cr.2 ∧ cr.2 ≤ batchesPerRun :=
  chunkRunsAux_mem epochs (totalRuns epochs) 0 cr hcr

lemma chunkPlan_sum (epochs : Nat) :
    ((chunkPlan epochs).map (fun cr => cr.2)).sum = epochs := by
  have h := congrArg List.length (reportedEpochs_eq_range epochs)
  simp only [reportedEpochs, List.length_flatten, List.map_map, Function.comp_def,
    List.length_map, List.length_range] at h
  exact h

lemma xorTrace_epochField (epochs : Nat) :
    ((chunkPlan epochs).map chunkEpochEvents).flatten
      = (List.range epochs).map TrainingEvent.epochEnd := by
  have h1 : ((chunkPlan epochs).map chunkEpochEvents).flatten
      = (((chunkPlan epochs).map
            (fun cr => (List.range cr.2).map (fun ep => cr.1 + ep))).map
          (List.map TrainingEvent.epochEnd)).flatten := by
    congr 1
    rw [List.map_map]
    apply List.map_congr_left
    intro cr _
    simp [chunkEpochEvents, List.map_map, Function.comp_def]
  rw [h1, ← List.map_flatten]
  rw [show ((chunkPlan epochs).map
      (fun cr => (List.range cr.2).map (fun ep => cr.1 + ep))).flatten
      = reportedEpochs epochs from rfl]
  rw [reportedEpochs_eq_range]

/-! ## C2: chunked epoch reporting -/

/-- C2: a chunked XOR training run partitions the epochs into fit chunks of
size at most 5, the global indices reported through onEpochEnd are exactly
0, 1, ..., epochs - 1 in strictly increasing order with no duplicate or
skipped index across chunk boundaries, and lossHistory ends with exactly one
entry per requested epoch. -/
theorem xor_chunked_epoch_reporting (epochs : Nat) (h : 1 ≤ epochs) (losses : Nat → ℚ) :
    reportedEpochs epochs = List.range epochs ∧
    (reportedEpochs epochs).Pairwise (· < ·) ∧
    (xorLossHistory losses epochs).length = epochs ∧
    ∀ cr ∈ chunkPlan epochs, 0 < cr.2 ∧ cr.2 ≤ 5 := by
  refine ⟨reportedEpochs_eq_range epochs, ?_, ?_, ?_⟩
  · rw [reportedEpochs_eq_range]
    exact List.pairwise_lt_range epochs
  · simp [xorLossHistory, reportedEpochs_eq_range]
  · intro cr hcr
    have := chunkPlan_mem epochs cr hcr
    simpa [batchesPerRun] using this

theorem xor_chunked_epoch_reporting_witness :
    reportedEpochs 7 = List.range 7 ∧
    (reportedEpochs 7).Pairwise (· < ·) ∧
    (xorLossHistory (fun _ => 0) 7).length = 7 ∧
    ∀ cr ∈ chunkPlan 7, 0 < cr.2 ∧ cr.2 ≤ 5 :=
  xor_chunked_epoch_reporting 7 (by decide) (fun _ => 0)

/-! ## C3: completion callback -/

/-- C3 counterexample: with 10 requested epochs the chunked circle trainer
invokes the completion callback twice — its onTrainEnd handler runs at the
end of each of the two fit chunks — contradicting the claim that the
completion callback fires exactly once per training run. -/
theorem circle_completion_fired_twice :
    completionCount (circleTrace 10) = 2 ∧ (2 : Nat) ≠ 1 := by
  constructor
  · decide
  · decide

/-- C3 amended: the chunked XOR path invokes the completion callback exactly
once, after the last onEpochEnd of the run; the chunked circle path (and the
identically structured regression path) registers its completion handler as
the per-fit onTrainEnd, so the callback fires once per fit chunk, that is
ceil(epochs / 5) times rather than once per run. -/
theorem completion_callback_per_path (epochs : Nat) :
    xorTrace epochs
      = (List.range epochs).map TrainingEvent.epochEnd
        ++ [TrainingEvent.trainingComplete] ∧
    completionCount (xorTrace epochs) = 1 ∧
    completionCount (circleTrace epochs) = totalRuns epochs := by
  have hx : xorTrace epochs
      = (List.range epochs).map TrainingEvent.epochEnd
        ++ [TrainingEvent.trainingComplete] := by
    unfold xorTrace
    rw [xorTrace_epochField]
  refine ⟨hx, ?_, ?_⟩
  · rw [hx]
    simp [completionCount, List.filter_append, List.filter_map, isCompleteEvent,
      Function.comp_def]
  · have hfe : ∀ cr : Nat × Nat, (chunkEpochEvents cr).filter isCompleteEvent = [] := by
      intro cr
      refine List.filter_eq_nil_iff.mpr ?_
      intro a ha
      obtain ⟨ep, _, rfl⟩ := List.mem_map.mp ha
      simp [isCompleteEvent]
    simp only [circleTrace, completionCount, List.filter_flatten, List.map_map,
      Function.comp_def, List.filter_append, hfe, List.nil_append]
    simp only [isCompleteEvent, List.filter_cons, List.filter_nil, if_pos]
    rw [← chunkPlan_length]
    simp [List.length_flatten, List.map_map, Function.comp_def]

/-! ## C4: cooperative cancellation -/

/-- C4 counterexample: requesting a stop sets the flag, yet the chunked XOR
trainer with the flag set still executes all 10 of its 10 requested epochs —
its per-epoch callback never reads shouldStopTraining, so training does not
halt in that path. -/
theorem xor_ignores_stop_flag :
    stopTraining { isTraining := true, shouldStopTraining := false }
      = { isTraining := true, shouldStopTraining := true } ∧
    xorEpochsExecuted 10 true = 10 := by
  constructor
  · decide
  · decide

/-- C4 amended: stopTraining only sets the shouldStopTraining flag. The
circle and regression chunk loops observe the flag at the next per-epoch
checkpoint, so with a pending stop each of their fit calls completes exactly
the in-flight epoch and a run degenerates to ceil(epochs / 5) single-epoch
chunks instead of halting outright; the chunked XOR path never observes the
flag and always executes every requested epoch. -/
theorem cooperative_stop_per_path (s : ModelState) (epochs : Nat) :
    (stopTraining s).shouldStopTraining = true ∧
    (stopTraining s).isTraining = s.isTraining ∧
    xorEpochsExecuted epochs true = epochs ∧
    xorEpochsExecuted epochs false = epochs ∧
    circleEpochsExecuted epochs false = epochs ∧
    circleEpochsExecuted epochs true = totalRuns epochs := by
  refine ⟨rfl, rfl, ?_, ?_, ?_, ?_⟩
  · simp only [xorEpochsExecuted, fitEpochsExecuted, Bool.false_eq_true, if_false]
    exact chunkPlan_sum epochs
  · simp only [xorEpochsExecuted, fitEpochsExecuted, Bool.false_eq_true, if_false]
    exact chunkPlan_sum epochs
  · simp only [circleEpochsExecuted, fitEpochsExecuted, Bool.false_eq_true, if_false]
    exact chunkPlan_sum epochs
  · simp only [circleEpochsExecuted, fitEpochsExecuted, if_true]
    have hone : ∀ cr ∈ chunkPlan epochs, min 1 cr.2 = 1 := by
      intro cr hcr
      have := (chunkPlan_mem epochs cr hcr).1
      omega
    rw [List.map_congr_left hone, ← chunkPlan_length]
    simp

/-! ## C6: fit batch sizes -/

/-- C6 counterexample: under the default parameter record (batchSize 32,
epochs 50) the chunked XOR trainer issues all ten of its fit calls with
batch size 4, not with parameters.batchSize. -/
theorem xor_fit_batch_size_hardcoded :
    exampleParameters.batchSize = 32 ∧
    xorFitBatchSizes exampleParameters = List.replicate 10 4 ∧
    (4 : Nat) ≠ 32 := by
  refine ⟨rfl, ?_, by decide⟩
  decide

/-- C6 amended: the chunked circle and regression trainers issue every fit
call of a run with the configured parameters.batchSize; the chunked XOR
trainer instead issues every fit call with the hard-coded batch size 4,
ignoring the parameter record. -/
theorem fit_batch_sizes_per_path (p : NeuralNetworkParameters) :
    (∀ b ∈ circleFitBatchSizes p, b = p.batchSize) ∧
    (∀ b ∈ xorFitBatchSizes p, b = 4) := by
  constructor
  · intro b hb
    obtain ⟨a, _, hab⟩ := List.mem_map.mp hb
    exact hab.symm
  · intro b hb
    obtain ⟨a, _, hab⟩ := List.mem_map.mp hb
    exact hab.symm

/-! ## C5 and C10: model construction -/

lemma range_map_getD (l : List Nat) :
    (List.range l.length).map (fun i => l.getD i 0) = l := by
  induction l with
  | nil => rfl
  | cons a t ih =>
    rw [List.length_cons, List.range_succ_eq_map, List.map_cons, List.map_map]
    simp only [List.getD_cons_zero]
    have hfun : ((fun i => (a :: t).getD i 0) ∘ Nat.succ) = fun i => t.getD i 0 := by
      funext i
      simp [List.getD_cons_succ]
    rw [hfun, ih]

/-- C5: for every valid parameter record (neuronsPerLayer of length
layerCount), both model builders stack exactly layerCount + 1 dense layers
whose unit counts are neuronsPerLayer followed by 1; the classification
builder ends with a single-unit sigmoid head and the regression builder with
a single-unit head carrying no activation. -/
theorem model_builder_layer_structure (p : NeuralNetworkParameters)
    (h : p.neuronsPerLayer.length = p.layers) :
    (createModel p).layers.length = p.layers + 1 ∧
    (createModel p).layers.map DenseLayerConfig.units = p.neuronsPerLayer ++ [1] ∧
    (createModel p).layers.getLast?
      = some { units := 1, activation := some ActivationIdentifier.sigmoid,
               inputShape := none } ∧
    (buildRegressionModel p).layers.length = p.layers + 1 ∧
    (buildRegressionModel p).layers.map DenseLayerConfig.units
      = p.neuronsPerLayer ++ [1] ∧
    (buildRegressionModel p).layers.getLast?
      = some { units := 1, activation := none, inputShape := none } := by
  refine ⟨?_, ?_, ?_, ?_, ?_, ?_⟩
  · simp [createModel]
  · simp only [createModel, List.map_append, List.map_map, Function.comp_def,
      List.map_cons, List.map_nil]
    congr 1
    rw [← h]
    exact range_map_getD p.neuronsPerLayer
  · simp [createModel, List.getLast?_concat]
  · simp [buildRegressionModel]
  · simp only [buildRegressionModel, List.map_append, List.map_map, Function.comp_def,
      List.map_cons, List.map_nil]
    congr 1
    rw [← h]
    exact range_map_getD p.neuronsPerLayer
  · simp [buildRegressionModel, List.getLast?_concat]

theorem model_builder_layer_structure_witness :
    (createModel exampleParameters).layers.length = exampleParameters.layers + 1 ∧
    (createModel exampleParameters).layers.map DenseLayerConfig.units
      = exampleParameters.neuronsPerLayer ++ [1] ∧
    (createModel exampleParameters).layers.getLast?
      = some { units := 1, activation := some ActivationIdentifier.sigmoid,
               inputShape := none } ∧
    (buildRegressionModel exampleParameters).layers.length
      = exampleParameters.layers + 1 ∧
    (buildRegressionModel exampleParameters).layers.map DenseLayerConfig.units
      = exampleParameters.neuronsPerLayer ++ [1] ∧
    (buildRegressionModel exampleParameters).layers.getLast?
      = some { units := 1, activation := none, inputShape := none } :=
  model_builder_layer_structure exampleParameters (by decide)

/-- C10: the public createModel always gives the first dense layer input
width 2 and appends a single-unit sigmoid head compiled with binary
cross-entropy, independent of the task, while the regression path builds its
own model inline with first-layer input width 1, an activation-free head and
mean squared error — so the two constructions differ on every parameter
record. -/
theorem createModel_fixed_classification_head (p : NeuralNetworkParameters)
    (h : 1 ≤ p.layers) :
    (createModel p).layers.head?.map DenseLayerConfig.inputShape = some (some 2) ∧
    (createModel p).loss = LossKind.binaryCrossentropy ∧
    (createModel p).layers.getLast?
      = some { units := 1, activation := some ActivationIdentifier.sigmoid,
               inputShape := none } ∧
    (buildRegressionModel p).layers.head?.map DenseLayerConfig.inputShape
      = some (some 1) ∧
    (buildRegressionModel p).loss = LossKind.meanSquaredError ∧
    createModel p ≠ buildRegressionModel p := by
  obtain ⟨k, hk⟩ : ∃ k, p.layers = k + 1 := ⟨p.layers - 1, by omega⟩
  refine ⟨?_, rfl, ?_, ?_, rfl, ?_⟩
  · simp [createModel, hk, List.range_succ_eq_map]
  · simp [createModel, List.getLast?_concat]
  · simp [buildRegressionModel, hk, List.range_succ_eq_map]
  · intro heq
    have hl : (createModel p).loss = (buildRegressionModel p).loss :=
      congrArg SequentialModel.loss heq
    rw [show (createModel p).loss = LossKind.binaryCrossentropy from rfl,
      show (buildRegressionModel p).loss = LossKind.meanSquaredError from rfl] at hl
    exact LossKind.noConfusion hl

theorem createModel_fixed_classification_head_witness :
    (createModel exampleParameters).layers.head?.map DenseLayerConfig.inputShape
      = some (some 2) ∧
    (createModel exampleParameters).loss = LossKind.binaryCrossentropy ∧
    (createModel exampleParameters).layers.getLast?
      = some { units := 1, activation := some ActivationIdentifier.sigmoid,
               inputShape := none } ∧
    (buildRegressionModel exampleParameters).layers.head?.map DenseLayerConfig.inputShape
      = some (some 1) ∧
    (buildRegressionModel exampleParameters).loss = LossKind.meanSquaredError ∧
    createModel exampleParameters ≠ buildRegressionModel exampleParameters :=
  createModel_fixed_classification_head exampleParameters (by decide)

/-! ## C7: regression accuracy derivation -/

/-- C7: the accuracy value the regression path reports for each epoch is
exactly 1 - mse / 10 with no further clamping, the loss slot passes through
unchanged, and the reported value is negative for any epoch whose mean
squared error exceeds 10. -/
theorem regression_accuracy_unclamped :
    (∀ loss mse : ℚ, (regressionEpochLogs loss mse).accuracy = 1 - mse / 10 ∧
        (regressionEpochLogs loss mse).loss = loss) ∧
    (∀ loss mse : ℚ, 10 < mse → (regressionEpochLogs loss mse).accuracy < 0) ∧
    (∃ mse : ℚ, 0 ≤ mse ∧ (regressionEpochLogs 0 mse).accuracy < 0) := by
  refine ⟨fun loss mse => ⟨rfl, rfl⟩, ?_, ⟨20, by norm_num, ?_⟩⟩
  · intro loss mse hm
    show (1 : ℚ) - mse / 10 < 0
    linarith
  · norm_num [regressionEpochLogs]

/-! ## C8: layer-count resizing -/

/-- C8: starting from a state satisfying the length invariant, a layer-count
change resizes neuronsPerLayer to exactly the new count: shrinking truncates
and keeps the prefix values, growing appends the default value 8 once per
new layer. -/
theorem handleLayersChange_resizes (layers newLayers : Nat) (npl : List Nat)
    (h : npl.length = layers) :
    ((handleLayersChange layers npl newLayers).2).length = newLayers ∧
    (handleLayersChange layers npl newLayers).2
      = npl.take newLayers ++ List.replicate (newLayers - layers) 8 ∧
    (handleLayersChange layers npl newLayers).1 = newLayers := by
  unfold handleLayersChange
  by_cases h1 : layers < newLayers
  · simp only [if_pos h1]
    refine ⟨?_, ?_, trivial⟩
    · simp only [List.length_append, List.length_replicate, h]
      omega
    · rw [List.take_of_length_le (by omega)]
  · simp only [if_neg h1]
    by_cases h2 : newLayers < layers
    · simp only [if_pos h2]
      have hrep : newLayers - layers = 0 := by omega
      refine ⟨?_, ?_, trivial⟩
      · simp only [List.length_take, h]
        omega
      · simp [hrep]
    · have h3 : newLayers = layers := by omega
      simp only [if_neg h2]
      refine ⟨by omega, ?_, trivial⟩
      have hrep : newLayers - layers = 0 := by omega
      rw [hrep, List.take_of_length_le (by omega)]
      simp

theorem handleLayersChange_resizes_witness :
    (((handleLayersChange 3 [4, 5, 6] 1).2).length = 1 ∧
      (handleLayersChange 3 [4, 5, 6] 1).2
        = [4, 5, 6].take 1 ++ List.replicate (1 - 3) 8 ∧
      (handleLayersChange 3 [4, 5, 6] 1).1 = 1) :=
  handleLayersChange_resizes 3 1 [4, 5, 6] (by decide)

/-! ## C9: circle dataset -/

/-- C9: for every sample count and every stream of Math.random draws in
[0, 1), every generated point lies in the square [-1, 1] x [-1, 1] and its
label is 1 exactly when its Euclidean distance from the origin is strictly
below 0.5, and 0 otherwise. -/
theorem generateCircleData_bounds_and_label (numSamples : Nat) (rand : Nat → ℝ)
    (hrand : ∀ i, 0 ≤ rand i ∧ rand i < 1) :
    ∀ p ∈ generateCircleData numSamples rand,
      (-1 ≤ p.x ∧ p.x ≤ 1 ∧ -1 ≤ p.y ∧ p.y ≤ 1) ∧
      (p.label = 1 ↔ Real.sqrt (p.x * p.x + p.y * p.y) < 0.5) ∧
      (p.label = 1 ∨ p.label = 0) := by
  intro p hp
  obtain ⟨i, _, rfl⟩ := List.mem_map.mp hp
  obtain ⟨hx0, hx1⟩ := hrand (2 * i)
  obtain ⟨hy0, hy1⟩ := hrand (2 * i + 1)
  simp only [circleSample]
  refine ⟨⟨by linarith, by linarith, by linarith, by linarith⟩, ?_, ?_⟩
  · by_cases hc :
        Real.sqrt ((rand (2 * i) * 2 - 1) * (rand (2 * i) * 2 - 1)
          + (rand (2 * i + 1) * 2 - 1) * (rand (2 * i + 1) * 2 - 1)) < 0.5
    · simp [hc]
    · simp [hc]
  · by_cases hc :
        Real.sqrt ((rand (2 * i) * 2 - 1) * (rand (2 * i) * 2 - 1)
          + (rand (2 * i + 1) * 2 - 1) * (rand (2 * i + 1) * 2 - 1)) < 0.5
    · left; simp [hc]
    · right; simp [hc]

theorem generateCircleData_bounds_and_label_witness :
    (-1 ≤ (circleSample 0 0).x ∧ (circleSample 0 0).x ≤ 1 ∧
      -1 ≤ (circleSample 0 0).y ∧ (circleSample 0 0).y ≤ 1) ∧
    ((circleSample 0 0).label = 1 ↔
      Real.sqrt ((circleSample 0 0).x * (circleSample 0 0).x
        + (circleSample 0 0).y * (circleSample 0 0).y) < 0.5) ∧
    ((circleSample 0 0).label = 1 ∨ (circleSample 0 0).label = 0) :=
  generateCircleData_bounds_and_label 1 (fun _ => 0)
    (fun _ => ⟨le_refl 0, zero_lt_one⟩) (circleSample 0 0)
    (by unfold generateCircleData
        exact List.mem_map.mpr ⟨0, by simp, rfl⟩)

/-! ## C1: tiered predict -/

lemma getD_last_eq_outputSize (m : TFLayersModel) (hne : m.layerUnits ≠ [])
    (hpos : ∀ u ∈ m.layerUnits, 0 < u) :
    m.layerUnits.getD (m.layerUnits.length - 1) 0 = outputSize m := by
  have hlast := List.getLast?_eq_getLast m.layerUnits hne
  have hpos2 := hpos _ (List.getLast_mem hne)
  have hne0 : m.layerUnits.getLast hne ≠ 0 := by omega
  have hlen : m.layerUnits.length - 1 < m.layerUnits.length := by
    have := List.length_pos.mpr hne
    omega
  simp only [outputSize, hlast, if_neg hne0]
  rw [List.getD_eq_getElem _ _ hlen]
  exact (List.getLast_eq_getElem _ hne).symm

/-- C1: for every created model and every input batch, predict returns an
output batch (never an error) whose row count is the input batch size and
whose width is the declared model output width; it forwards the direct
tier-1 result when that succeeds, otherwise the first-plus-last layer tier-2
result when that succeeds, and otherwise an all-zero batch of shape
[batchSize, outputWidth]. The hypotheses record the TF.js dense-layer
contract: a successful backend call returns a batch with one row per input
row and one column per unit of the applied stack. -/
theorem predict_tiered_fallback (m : TFLayersModel) (inputs : Tensor2)
    (hne : m.layerUnits ≠ [])
    (hpos : ∀ u ∈ m.layerUnits, 0 < u)
    (hpred : ∀ x r, m.predictOp x = Except.ok r → r.rows = x.rows ∧ r.cols = outputSize m)
    (happly : ∀ i x r, m.applyLayer i x = Except.ok r →
        r.rows = x.rows ∧ r.cols = m.layerUnits.getD i 0) :
    (∃ out, NNpredict (some m) inputs = Except.ok out ∧
        out.rows = inputs.rows ∧ out.cols = outputSize m) ∧
    (∀ r, tier1Result m inputs = Except.ok r →
        NNpredict (some m) inputs = Except.ok r) ∧
    (∀ e r, tier1Result m inputs = Except.error e →
        layerPairApply m inputs = Except.ok r →
        NNpredict (some m) inputs = Except.ok r) ∧
    (∀ e e2, tier1Result m inputs = Except.error e →
        layerPairApply m inputs = Except.error e2 →
        NNpredict (some m) inputs = Except.ok (tfZeros inputs.rows (outputSize m)) ∧
        ∀ i j, (tfZeros inputs.rows (outputSize m)).entry i j = 0) := by
  have hlp : ∀ r, layerPairApply m inputs = Except.ok r →
      r.rows = inputs.rows ∧ r.cols = outputSize m := by
    intro r hr
    unfold layerPairApply at hr
    cases h0 : m.applyLayer 0 inputs with
    | error e => rw [h0] at hr; exact Except.noConfusion hr
    | ok features =>
      rw [h0] at hr
      obtain ⟨hfr, _⟩ := happly 0 inputs features h0
      obtain ⟨hrr, hrc⟩ := happly (m.layerUnits.length - 1) features r hr
      exact ⟨by rw [hrr, hfr], by rw [hrc]; exact getD_last_eq_outputSize m hne hpos⟩
  refine ⟨?_, ?_, ?_, ?_⟩
  · cases h1 : tier1Result m inputs with
    | ok r =>
      have hok : m.predictOp inputs = Except.ok r := by
        unfold tier1Result at h1
        by_cases hc : m.inputWidth ≠ 0 ∧ inputs.cols ≠ 0 ∧ m.inputWidth ≠ inputs.cols
        · rw [if_pos hc] at h1
          exact Except.noConfusion h1
        · rwa [if_neg hc] at h1
      obtain ⟨hr1, hr2⟩ := hpred inputs r hok
      exact ⟨r, by simp [NNpredict, h1], hr1, hr2⟩
    | error e =>
      cases h2 : layerPairApply m inputs with
      | ok r =>
        obtain ⟨hr1, hr2⟩ := hlp r h2
        exact ⟨r, by simp [NNpredict, h1, h2], hr1, hr2⟩
      | error e2 =>
        exact ⟨tfZeros inputs.rows (outputSize m), by simp [NNpredict, h1, h2], rfl, rfl⟩
  · intro r h1
    simp [NNpredict, h1]
  · intro e r h1 h2
    simp [NNpredict, h1, h2]
  · intro e e2 h1 h2
    exact ⟨by simp [NNpredict, h1, h2], fun i j => rfl⟩

theorem predict_tiered_fallback_witness :
    ∃ out, NNpredict (some exampleTFModel) exampleInputs = Except.ok out ∧
      out.rows = exampleInputs.rows ∧ out.cols = outputSize exampleTFModel :=
  (predict_tiered_fallback exampleTFModel exampleInputs
    (by decide) (by decide)
    (fun x r hxr => Except.noConfusion hxr)
    (fun i x r hxr => Except.noConfusion hxr)).1
